import Mathlib

/-!
Verification of the TODO backend's domain/application/repository core.

The definitions below are a shallow embedding of the TypeScript source:
  - `UserGuards` / `TaskGuards` embed the length guards of
    `src/domain/user/user.guards.ts` and `src/domain/task/task.guard.ts`;
  - `JsDate` models a JavaScript `Date` (valid instant in epoch
    milliseconds, or the invalid `NaN` date);
  - `JsOpt` models the wire value of the optional task description as it
    reaches the `OptionFromNullishOrFixed` transform of
    `src/app/domain/utils/validation.utils.ts` (`null`, `undefined`, a
    string, or some other non-string JSON value);
  - `Task.create` / `Task.serializedE` and `User.create` /
    `User.serializedE` embed the Effect-Schema decode/encode pipelines of
    the two entities;
  - the repository operations are embedded as pure state transformers over
    a list of stored rows, mirroring the drizzle queries issued by
    `task.repository.impl.ts` and `user.repository.impl.ts`;
  - `calculateOffset` / `buildPaginationMeta` embed
    `src/infra/repository/query-builders.ts`.
-/

deriving instance DecidableEq for Except

namespace Todo

/-! ## JavaScript dates -/

/-- Model of a JavaScript `Date`: either a valid instant (epoch
milliseconds) or the invalid date whose `getTime()` is `NaN`. -/
inductive JsDate where
  | valid (ms : Int)
  | invalid
deriving DecidableEq, Repr

/-- `!isNaN(d.getTime())`, the check performed by `DateTimeSchema`. -/
def JsDate.isValidDate : JsDate → Bool
  | .valid _ => true
  | .invalid => false

/-! ## UUID pattern (brand/schemas.ts, `UUID_PATTERN`, case-insensitive) -/

/-- A hex digit as accepted by the `[0-9a-f]` character class under the
`/i` flag of `UUID_PATTERN`. -/
def isHexDigit (c : Char) : Bool :=
  (('0' ≤ c) && (c ≤ '9')) || (('a' ≤ c) && (c ≤ 'f')) || (('A' ≤ c) && (c ≤ 'F'))

/-- Split a character list on the dash separator. -/
def splitDash : List Char → List (List Char)
  | [] => [[]]
  | c :: cs =>
      if c == '-' then [] :: splitDash cs
      else
        match splitDash cs with
        | [] => [[c]]
        | g :: gs => (c :: g) :: gs

/-- `UUID_PATTERN.test s`: five dash-separated groups of hex digits with
lengths 8-4-4-4-12. -/
def isUUIDString (s : String) : Bool :=
  let parts := splitDash s.toList
  (parts.map List.length == [8, 4, 4, 4, 12]) &&
    parts.all (fun p => p.all isHexDigit)

/-! ## Field guards

`UserGuards` is `src/domain/user/user.guards.ts` (note the strict `< 255`
upper bound in the source); `TaskGuards` is
`src/domain/task/task.guard.ts` (inclusive `<= 255`). -/

namespace UserGuards

/-- `input.length > 0 && input.length < 255` -/
def validateName (s : String) : Bool :=
  (s.length > 0) && (s.length < 255)

/-- `input.length > 0 && input.length < 255` -/
def validateEmail (s : String) : Bool :=
  (s.length > 0) && (s.length < 255)

/-- `input.length > 0 && input.length < 255` -/
def validatePassword (s : String) : Bool :=
  (s.length > 0) && (s.length < 255)

end UserGuards

namespace TaskGuards

/-- `input.length > 0 && input.length <= 255` -/
def validateTitle (s : String) : Bool :=
  (s.length > 0) && (s.length ≤ 255)

/-- `input.length >= 50 && input.length <= 1000` -/
def validateDescription (s : String) : Bool :=
  (50 ≤ s.length) && (s.length ≤ 1000)

end TaskGuards

/-- ASCII string of `n` copies of `a`, used for boundary-length inputs. -/
def mkA (n : Nat) : String := String.mk (List.replicate n 'a')

theorem mkA_length (n : Nat) : (mkA n).length = n := by
  simp [mkA, String.length]

/-! ## Wire values for the optional description

`OptionFromNullishOrFixed` (validation.utils.ts) receives an arbitrary
JSON-ish value for the `description` key.  We model the relevant value
universe: `null`, `undefined`, a string, or some other non-string value. -/

inductive JsOpt where
  | null
  | undef
  | str (s : String)
  | other
deriving DecidableEq, Repr

/-- Unified error kind for the embedded pipelines.  The source carries
typed error classes (`TaskValidationError`, `TaskMutationError` with an
operation tag, `QueryError`, …); the claims only inspect the kind, so the
payloads are collapsed. -/
inductive Err where
  | validation
  | notFound (op : String)
  | mutation (op : String)
  | query
  | deser
deriving DecidableEq, Repr

/-! ## Optional-description codec

Decode/encode of `Optional(S.String.pipe(TaskGuards.validateDescription))`
= `OptionFromNullishOrFixed(schema, null)` from validation.utils.ts. -/

/-- Decode arm of `OptionFromNullishOrFixed`: `null`/`undefined` succeed
with `none`; any other input is decoded through the inner schema
(`S.String.pipe(validateDescription)`), whose failure is a parse failure,
not an absent value. -/
def decodeDescription : JsOpt → Except Err (Option String)
  | .null => .ok none
  | .undef => .ok none
  | .str s => if TaskGuards.validateDescription s then .ok (some s) else .error .validation
  | .other => .error .validation

/-- Encode arm of `OptionFromNullishOrFixed(…, null)`: `Option.none`
encodes to the fixed `onNoneEncoding = null`; `Option.some` encodes
through the inner schema, which re-runs the guard. -/
def encodeDescription : Option String → Except Err JsOpt
  | none => .ok .null
  | some s => if TaskGuards.validateDescription s then .ok (.str s) else .error .validation

/-! ## Task entity (task.schema.ts + task.entity.ts) -/

/-- Task status literal `S.Literal("TODO", "IN_PROGRESS", "DONE")`. -/
inductive TaskStatus where
  | todo
  | inProgress
  | done
deriving DecidableEq, Repr

/-- Wire spelling of a status value. -/
def TaskStatus.encoded : TaskStatus → String
  | .todo => "TODO"
  | .inProgress => "IN_PROGRESS"
  | .done => "DONE"

/-- Decode arm of the status literal schema. -/
def TaskStatus.fromEncoded (s : String) : Option TaskStatus :=
  if s == "TODO" then some .todo
  else if s == "IN_PROGRESS" then some .inProgress
  else if s == "DONE" then some .done
  else none

/-- `SerializedTask = S.Schema.Encoded<typeof TaskSchema>`: the wire/DB
shape of a task.  `description` is the raw nullish-or-string wire value;
`status` is the raw string checked against the literal schema. -/
structure SerializedTask where
  id : String
  title : String
  description : JsOpt
  status : String
  assigneeId : String
  createdAt : JsDate
  updatedAt : JsDate
deriving DecidableEq, Repr

/-- `Task = S.Schema.Type<typeof TaskSchema>`: the decoded entity.
Brands are compile-time only, so `id`/`assigneeId` stay strings and the
timestamps stay (valid) dates. -/
structure TaskE where
  id : String
  title : String
  description : Option String
  status : TaskStatus
  assigneeId : String
  createdAt : JsDate
  updatedAt : JsDate
deriving DecidableEq, Repr

namespace TaskE

/-- The per-field checks `S.decodeUnknown(TaskSchema)` runs on the scalar
fields (UUID pattern for the two ids, the title guard, the date guard). -/
def scalarFieldsOk (id title assigneeId : String)
    (createdAt updatedAt : JsDate) : Bool :=
  isUUIDString id && TaskGuards.validateTitle title &&
    isUUIDString assigneeId && createdAt.isValidDate && updatedAt.isValidDate

/-- `Task.create(input)`: decode the serialized record through
`TaskSchema`; any field failure fails the whole construction with a
validation error (task.entity.ts, `static create`). -/
def create (r : SerializedTask) : Except Err TaskE :=
  match TaskStatus.fromEncoded r.status, decodeDescription r.description with
  | some st, .ok d =>
      if scalarFieldsOk r.id r.title r.assigneeId r.createdAt r.updatedAt then
        .ok ⟨r.id, r.title, d, st, r.assigneeId, r.createdAt, r.updatedAt⟩
      else .error .validation
  | _, _ => .error .validation

/-- `task.serialized()`: encode the entity through `TaskSchema`
(task.entity.ts).  Encoding re-runs the refinement guards, so it can fail
with a parse error on an invalid entity. -/
def serializedE (t : TaskE) : Except Err SerializedTask :=
  match encodeDescription t.description with
  | .ok d =>
      if scalarFieldsOk t.id t.title t.assigneeId t.createdAt t.updatedAt then
        .ok ⟨t.id, t.title, d, t.status.encoded, t.assigneeId, t.createdAt, t.updatedAt⟩
      else .error .validation
  | .error e => .error e

end TaskE

/-! ## User entity (user.schema.ts + user.entity.ts) -/

/-- `SerializedUser = S.Schema.Encoded<typeof UserSchema>`. -/
structure SerializedUser where
  id : String
  name : String
  email : String
  password : String
  createdAt : JsDate
  updatedAt : JsDate
deriving DecidableEq, Repr

/-- `User = S.Schema.Type<typeof UserSchema>` (brands erased). -/
structure UserE where
  id : String
  name : String
  email : String
  password : String
  createdAt : JsDate
  updatedAt : JsDate
deriving DecidableEq, Repr

namespace UserE

/-- The field checks `S.decodeUnknown(UserSchema)` runs: UUID pattern for
the id, the three `UserGuards` length guards, the date guard. -/
def fieldsOk (id name email password : String)
    (createdAt updatedAt : JsDate) : Bool :=
  isUUIDString id && UserGuards.validateName name &&
    UserGuards.validateEmail email && UserGuards.validatePassword password &&
    createdAt.isValidDate && updatedAt.isValidDate

/-- `User.create(input)` (user.entity.ts, `static create`). -/
def create (r : SerializedUser) : Except Err UserE :=
  if fieldsOk r.id r.name r.email r.password r.createdAt r.updatedAt then
    .ok ⟨r.id, r.name, r.email, r.password, r.createdAt, r.updatedAt⟩
  else .error .validation

/-- `user.serialized()` (user.entity.ts): encode through `UserSchema`,
re-running the guards. -/
def serializedE (u : UserE) : Except Err SerializedUser :=
  if fieldsOk u.id u.name u.email u.password u.createdAt u.updatedAt then
    .ok ⟨u.id, u.name, u.email, u.password, u.createdAt, u.updatedAt⟩
  else .error .validation

end UserE

/-! ## Pagination builders (infra/repository/query-builders.ts) -/

/-- `calculateOffset(page, limit) = (page - 1) * limit`. -/
def calculateOffset (page limit : Int) : Int :=
  (page - 1) * limit

/-- Exact value of `Math.ceil(total / limit)` for a positive `limit`:
the ceiling of the rational quotient, computed as `-((−total) / limit)`
with integer floor division.  `mathCeilDiv_eq_ceil` grounds this below. -/
def mathCeilDiv (total limit : Int) : Int :=
  -((-total) / limit)

/-- The record returned by `buildPaginationMeta`. -/
structure PaginationMeta where
  page : Int
  limit : Int
  total : Int
  totalPages : Int
  hasNext : Bool
  hasPrev : Bool
deriving DecidableEq, Repr

/-- `buildPaginationMeta(page, limit, total)` (query-builders.ts):
`totalPages = Math.ceil(total / limit)`, `hasNext = page < totalPages`,
`hasPrev = page > 1`. -/
def buildPaginationMeta (page limit total : Int) : PaginationMeta :=
  let totalPages := mathCeilDiv total limit
  { page := page, limit := limit, total := total, totalPages := totalPages,
    hasNext := decide (page < totalPages), hasPrev := decide (page > 1) }

/-- `mathCeilDiv` really is the mathematical ceiling of `total / limit`
when `limit > 0`, i.e. the exact value `Math.ceil` computes. -/
theorem mathCeilDiv_eq_ceil (total limit : Int) (hl : 0 < limit) :
    mathCeilDiv total limit = Int.ceil ((total : ℚ) / (limit : ℚ)) := by
  have hd : limit = ((limit.toNat : ℕ) : ℤ) := by
    omega
  have hq : (limit : ℚ) = ((limit.toNat : ℕ) : ℚ) := by
    exact_mod_cast hd
  have h1 : Int.ceil ((total : ℚ) / (limit : ℚ))
      = -Int.floor ((((-total : ℤ) : ℤ) : ℚ) / ((limit.toNat : ℕ) : ℚ)) := by
    rw [← hq]
    push_cast
    rw [neg_div, Int.floor_neg, neg_neg]
  rw [h1, Rat.floor_intCast_div_natCast, mathCeilDiv, ← hd]

/-! ## Postgres LIKE / text search (query-builders.ts) -/

/-- Is `pat` a prefix of `hay` (character lists)? -/
def charsHavePrefix : List Char → List Char → Bool
  | [], _ => true
  | _ :: _, [] => false
  | a :: as, b :: bs => a == b && charsHavePrefix as bs

/-- Does `hay` contain `pat` as a contiguous substring? -/
def charsContain : List Char → List Char → Bool
  | [], pat => pat.isEmpty
  | hay@(_ :: rest), pat => charsHavePrefix pat hay || charsContain rest pat

/-- Postgres `column LIKE '%text%'` for a wildcard-free `text`:
a case-sensitive substring match. -/
def sqlLikeContains (column text : String) : Bool :=
  charsContain column.toList text.toList

/-- A nullable text column (`description` is nullable in the tasks
table).  `NULL LIKE pattern` is not true in SQL. -/
def sqlLikeContainsNullable (column : Option String) (text : String) : Bool :=
  match column with
  | none => false
  | some s => sqlLikeContains s text

/-! ## Search parameters (task.schema.ts `PaginatedSearchParams`)

Decoded shape: dates are valid instants (epoch ms) after `DateTimeSchema`,
ids are UUID strings, status is single-or-list. -/

structure SearchParams where
  page : Int
  limit : Int
  text : Option String
  status : Option (List TaskStatus)
  assigneeId : Option String
  createdFrom : Option Int
  createdTo : Option Int
deriving DecidableEq, Repr

/-- The `S.filter` refinement on `PaginatedSearchParams`:
`if (params.createdFrom && params.createdTo) return createdFrom <= createdTo`
(dates compare by epoch milliseconds). -/
def dateRangeOk (createdFrom createdTo : Option Int) : Bool :=
  match createdFrom, createdTo with
  | some f, some t => f ≤ t
  | _, _ => true

/-- Decode of `PaginatedSearchParams` on an input whose fields are already
well-typed: the struct decode succeeds, then the date-range filter either
accepts or rejects the whole record (task.schema.ts). -/
def decodeSearchParams (p : SearchParams) : Except Err SearchParams :=
  if dateRangeOk p.createdFrom p.createdTo then .ok p else .error .validation

/-- The WHERE predicate built by `TaskDrizzleRepository.search`
(task.repository.impl.ts lines 216–271): the only condition supplied to
`flattenConditions` is `buildTextSearchFilter([title, description], text)`
— `like` on title OR `like` on description when `text` is present, and no
condition at all (`whereClause = undefined`) when it is absent.  The
`status`, `assigneeId`, `createdFrom`, `createdTo` parameters are never
consulted. -/
def taskSearchWhere (r : SerializedTask) (p : SearchParams) : Bool :=
  match p.text with
  | none => true
  | some t =>
      sqlLikeContains r.title t ||
        sqlLikeContainsNullable
          (match r.description with | .str s => some s | _ => none) t

/-- ASCII lowercase of one character. -/
def asciiLowerChar (c : Char) : Char :=
  if (('A' ≤ c) && (c ≤ 'Z')) then Char.ofNat (c.toNat + 32) else c

/-- Case-insensitive substring match (both sides lowercased). -/
def ciContains (hay pat : String) : Bool :=
  charsContain (hay.toList.map asciiLowerChar) (pat.toList.map asciiLowerChar)

/-- Modelled from the spec: the WHERE predicate the claim describes — a
case-insensitive substring match on title OR description when `text` is
present, AND-combined with the status, assignee and date-range filters,
each absent filter imposing no constraint.  Defined from the claim's words
solely for comparison with `taskSearchWhere`. -/
def specTaskSearchWhere (r : SerializedTask) (createdAtMs : Int)
    (p : SearchParams) : Bool :=
  (match p.text with
   | none => true
   | some t =>
       ciContains r.title t ||
         (match r.description with | .str s => ciContains s t | _ => false)) &&
  (match p.status with
   | none => true
   | some sts => sts.any (fun st => st.encoded == r.status)) &&
  (match p.assigneeId with
   | none => true
   | some a => r.assigneeId == a) &&
  (match p.createdFrom with
   | none => true
   | some f => f ≤ createdAtMs) &&
  (match p.createdTo with
   | none => true
   | some t => createdAtMs ≤ t)

/-! ## Stored state

The backing store is modelled as the list of rows of each table; each
drizzle query becomes a pure function of that list.  A task row reaches
`fromDbRow` exactly as a `SerializedTask` (the columns match 1:1), a user
row as a `SerializedUser`. -/

/-- Epoch milliseconds of a row's `createdAt` column (timestamp columns
hold valid instants; the invalid date is given a dummy key so the
function stays total). -/
def SerializedTask.createdMs (r : SerializedTask) : Int :=
  match r.createdAt with
  | .valid ms => ms
  | .invalid => 0

/-- Epoch milliseconds of a user row's `createdAt` column. -/
def SerializedUser.createdMs (r : SerializedUser) : Int :=
  match r.createdAt with
  | .valid ms => ms
  | .invalid => 0

/-- Insert `a` into `l` before the first element it precedes. -/
def insertBy (before : α → α → Bool) (a : α) : List α → List α
  | [] => [a]
  | b :: bs => if before a b then a :: b :: bs else b :: insertBy before a bs

/-- Deterministic model of the row order the database returns for an
ORDER BY clause given as a strict precedence test. -/
def sortRows (before : α → α → Bool) (l : List α) : List α :=
  l.foldr (insertBy before) []

/-- `ORDER BY tasks.createdAt DESC` (the data query of
`TaskDrizzleRepository.search`): a row strictly precedes another exactly
when it is newer.  No further key is given, so rows with equal
`createdAt` are not distinguished. -/
def taskRowBefore (a b : SerializedTask) : Bool :=
  b.createdMs < a.createdMs

/-- `ORDER BY users.createdAt DESC, users.id DESC` (the data query of
`UserDrizzleRepository.fetchPaginated`). -/
def userRowBefore (a b : SerializedUser) : Bool :=
  (b.createdMs < a.createdMs) ||
    ((b.createdMs == a.createdMs) && decide (b.id < a.id))

/-- Three-way comparison on the integer sort key. -/
def intCompare (a b : Int) : Ordering :=
  if a < b then .lt else if a = b then .eq else .gt

/-- Three-way comparison on the identifier column (any total order on
identifiers serves as the model of the database's uuid ordering). -/
def strCompare (a b : String) : Ordering :=
  if a < b then .lt else if a = b then .eq else .gt

/-- The comparator induced by `ORDER BY tasks.createdAt DESC` alone. -/
def taskSearchDataOrd (a b : SerializedTask) : Ordering :=
  intCompare b.createdMs a.createdMs

/-- The comparator induced by
`ORDER BY users.createdAt DESC, users.id DESC`. -/
def userPaginatedDataOrd (a b : SerializedUser) : Ordering :=
  (intCompare b.createdMs a.createdMs).then (strCompare b.id a.id)

/-- `E.all(rows.map(fromDbRow))` for tasks: deserialize every row,
failing with the first row that does not decode. -/
def createAllTasks : List SerializedTask → Except Err (List TaskE)
  | [] => .ok []
  | r :: rs =>
      match TaskE.create r, createAllTasks rs with
      | .ok t, .ok ts => .ok (t :: ts)
      | .error e, _ => .error e
      | _, .error e => .error e

/-- `E.all(rows.map(fromDbRow))` for users. -/
def createAllUsers : List SerializedUser → Except Err (List UserE)
  | [] => .ok []
  | r :: rs =>
      match UserE.create r, createAllUsers rs with
      | .ok u, .ok us => .ok (u :: us)
      | .error e, _ => .error e
      | _, .error e => .error e

/-- `{ data, pagination }` as returned by the paginated operations. -/
structure Paginated (α : Type) where
  data : List α
  pagination : PaginationMeta
deriving DecidableEq, Repr

/-- Decoded `PaginationOptions` (`PaginatedQuerySchema`): page and limit;
the optional sort fields are never read by the implementations below. -/
structure PagDto where
  page : Int
  limit : Int
deriving DecidableEq, Repr

namespace TaskRepo

/-- `TaskDrizzleRepository.fetchById`:
`SELECT * FROM tasks WHERE id = ? LIMIT 1`, then `fromDbRow` on the row
if any; a row that fails to deserialize surfaces as a `QueryError`. -/
def fetchById (st : List SerializedTask) (id : String) :
    Except Err (Option TaskE) :=
  match (st.filter (fun r => r.id == id)).head? with
  | none => .ok none
  | some row =>
      match TaskE.create row with
      | .ok t => .ok (some t)
      | .error _ => .error .query

/-- `TaskDrizzleRepository.ensureExists`: fetch, fail with the
"Task not found" mutation error when absent (`Err.notFound "update"`
models `TaskMutationError("update", "Task not found")`), wrap any other
failure as a generic update mutation error. -/
def ensureExists (st : List SerializedTask) (id : String) :
    Except Err Unit :=
  match fetchById st id with
  | .ok none => .error (.notFound "update")
  | .ok (some _) => .ok ()
  | .error _ => .error (.mutation "update")

/-- `TaskDrizzleRepository.update`: `ensureExists` first; only on success
serialize the entity and issue
`UPDATE tasks SET … WHERE id = ?` (replacing every matching row); the
result is the entity itself (`E.as(entity)`). -/
def update (st : List SerializedTask) (e : TaskE) :
    Except Err TaskE × List SerializedTask :=
  match ensureExists st e.id with
  | .error err => (.error err, st)
  | .ok _ =>
      match TaskE.serializedE e with
      | .error _ => (.error (.mutation "update"), st)
      | .ok row => (.ok e, st.map (fun r => if r.id == e.id then row else r))

/-- `TaskDrizzleRepository.deleteById`: fetch the prior state, fail with
the "Task not found" removal error when absent, otherwise issue
`DELETE FROM tasks WHERE id = ?` and return the prior entity. -/
def deleteById (st : List SerializedTask) (id : String) :
    Except Err TaskE × List SerializedTask :=
  match fetchById st id with
  | .error _ => (.error (.mutation "remove"), st)
  | .ok none => (.error (.notFound "remove"), st)
  | .ok (some t) => (.ok t, st.filter (fun r => !(r.id == id)))

/-- `TaskDrizzleRepository.fetchAll`: `SELECT * FROM tasks`, then
deserialize every row. -/
def fetchAll (st : List SerializedTask) : Except Err (List TaskE) :=
  match createAllTasks st with
  | .ok ts => .ok ts
  | .error _ => .error .query

/-- `TaskDrizzleRepository.search`: one count query and one data query
against the same WHERE predicate (`taskSearchWhere`), the data query
ordered by `createdAt DESC` and windowed by `LIMIT limit OFFSET offset`;
the page of rows is deserialized and bundled with
`buildPaginationMeta(page, limit, total)`. -/
def search (st : List SerializedTask) (p : SearchParams) :
    Except Err (Paginated TaskE) :=
  let matching := st.filter (fun r => taskSearchWhere r p)
  let offset := calculateOffset p.page p.limit
  let rows := ((sortRows taskRowBefore matching).drop offset.toNat).take p.limit.toNat
  match createAllTasks rows with
  | .ok ts =>
      .ok ⟨ts, buildPaginationMeta p.page p.limit (matching.length : Int)⟩
  | .error _ => .error .query

end TaskRepo

namespace UserRepo

/-- `UserDrizzleRepository.fetchById`: malformed (non-UUID) identifiers
short-circuit to the empty result; otherwise
`SELECT * FROM users WHERE id = ? LIMIT 1` and `fromDbRow`. -/
def fetchById (st : List SerializedUser) (id : String) :
    Except Err (Option UserE) :=
  if !(isUUIDString id) then .ok none
  else
    match (st.filter (fun r => r.id == id)).head? with
    | none => .ok none
    | some row =>
        match UserE.create row with
        | .ok u => .ok (some u)
        | .error _ => .error .query

/-- `UserDrizzleRepository.ensureExists`: absent rows raise
`UserNotFoundError` (a `QueryError` subclass, so the subsequent
`mapError` keeps it); `update` later wraps it in
`UserMutationError("update", …)` — the wrapped family is collapsed to
`Err.notFound "update"`. -/
def ensureExists (st : List SerializedUser) (id : String) :
    Except Err Unit :=
  match fetchById st id with
  | .ok none => .error (.notFound "update")
  | .ok (some _) => .ok ()
  | .error _ => .error .query

/-- `UserDrizzleRepository.update`: verify existence, then serialize and
issue `UPDATE users SET … WHERE id = ?`, returning the entity. -/
def update (st : List SerializedUser) (e : UserE) :
    Except Err UserE × List SerializedUser :=
  match ensureExists st e.id with
  | .error (.notFound op) => (.error (.notFound op), st)
  | .error _ => (.error (.mutation "update"), st)
  | .ok _ =>
      match UserE.serializedE e with
      | .error _ => (.error (.mutation "update"), st)
      | .ok row => (.ok e, st.map (fun r => if r.id == e.id then row else r))

/-- `UserDrizzleRepository.deleteById`: fetch prior state, fail with the
"User not found" removal error when absent, else
`DELETE FROM users WHERE id = ?` and return the prior entity. -/
def deleteById (st : List SerializedUser) (id : String) :
    Except Err UserE × List SerializedUser :=
  match fetchById st id with
  | .error _ => (.error (.mutation "remove"), st)
  | .ok none => (.error (.notFound "remove"), st)
  | .ok (some u) => (.ok u, st.filter (fun r => !(r.id == id)))

/-- `UserDrizzleRepository.fetchPaginated`: an unfiltered count query
plus a data query ordered by `createdAt DESC, id DESC` and windowed by
`LIMIT limit OFFSET offset`, bundled with `buildPaginationMeta`. -/
def fetchPaginated (st : List SerializedUser) (dto : PagDto) :
    Except Err (Paginated UserE) :=
  let offset := calculateOffset dto.page dto.limit
  let rows := ((sortRows userRowBefore st).drop offset.toNat).take dto.limit.toNat
  match createAllUsers rows with
  | .ok us => .ok ⟨us, buildPaginationMeta dto.page dto.limit (st.length : Int)⟩
  | .error _ => .error .query

end UserRepo

/-! ## Workflows (task.workflows.ts / user workflows) -/

/-- `getTasksPaginated` (task.workflows.ts lines 134–140): after the
pagination DTO decodes, the workflow calls `repo.fetchAll()` — the
decoded options are never used — and maps any repository error to a
workflow validation error. -/
def getTasksPaginatedW (st : List SerializedTask) (_dto : PagDto) :
    Except Err (List TaskE) :=
  match TaskRepo.fetchAll st with
  | .ok l => .ok l
  | .error _ => .error .validation

/-- `getUsersPaginated` (user workflows): after the pagination DTO
decodes, delegate to `repo.fetchPaginated(options)` and map any
repository error to a workflow validation error. -/
def getUsersPaginatedW (st : List SerializedUser) (dto : PagDto) :
    Except Err (Paginated UserE) :=
  match UserRepo.fetchPaginated st dto with
  | .ok d => .ok d
  | .error _ => .error .validation

/-- `searchTasks` (task.workflows.ts): decode the search DTO, then — and
only then — call `repo.search(params)`.  The Boolean records whether the
repository was invoked. -/
def searchTasksW (st : List SerializedTask) (p : SearchParams) :
    Except Err (Paginated TaskE) × Bool :=
  match decodeSearchParams p with
  | .error _ => (.error .validation, false)
  | .ok params =>
      (match TaskRepo.search st params with
       | .ok d => .ok d
       | .error _ => .error .validation,
       true)

/-! ## Concrete fixtures used by counterexamples and witnesses -/

def uuid1 : String := "11111111-1111-1111-1111-111111111111"

def uuid2 : String := "22222222-2222-2222-2222-222222222222"

def uuid3 : String := "33333333-3333-3333-3333-333333333333"

/-- A valid serialized task whose `description` key holds `undefined`. -/
def taskRecUndef : SerializedTask :=
  ⟨uuid1, "Write the spec", .undef, "TODO", uuid2, .valid 1000, .valid 1000⟩

/-- The entity `Task.create` produces from `taskRecUndef`. -/
def taskEntityU : TaskE :=
  ⟨uuid1, "Write the spec", none, .todo, uuid2, .valid 1000, .valid 1000⟩

/-- `taskRecUndef` with `description` re-encoded: the absent case comes
back as `null`. -/
def taskRecNull : SerializedTask :=
  ⟨uuid1, "Write the spec", .null, "TODO", uuid2, .valid 1000, .valid 1000⟩

/-- A valid serialized user row. -/
def userRec0 : SerializedUser :=
  ⟨uuid1, "Ada", "ada@example.com", "secret-pw", .valid 5, .valid 6⟩

/-- The entity `User.create` produces from `userRec0`. -/
def userEnt0 : UserE :=
  ⟨uuid1, "Ada", "ada@example.com", "secret-pw", .valid 5, .valid 6⟩

/-! # Claims -/

set_option maxRecDepth 10000 in
/-- C2: the validation boundaries evaluated at each stated length.  The
task guards match the claim (title 1..255 inclusive, description
50..1000 inclusive), but `UserGuards.validateName` uses a strict
`< 255`, so a 255-character user name — accepted per the claim, per the
guard's own "between 1 and 255 characters" message, and per the repo's
`user.guards.test.ts` — is rejected by the code. -/
theorem validationBoundaries_eval :
    UserGuards.validateName (mkA 0) = false ∧
    UserGuards.validateName (mkA 1) = true ∧
    UserGuards.validateName (mkA 255) = false ∧
    UserGuards.validateName (mkA 256) = false ∧
    TaskGuards.validateTitle (mkA 0) = false ∧
    TaskGuards.validateTitle (mkA 1) = true ∧
    TaskGuards.validateTitle (mkA 255) = true ∧
    TaskGuards.validateTitle (mkA 256) = false ∧
    TaskGuards.validateDescription (mkA 49) = false ∧
    TaskGuards.validateDescription (mkA 50) = true ∧
    TaskGuards.validateDescription (mkA 1000) = true ∧
    TaskGuards.validateDescription (mkA 1001) = false := by
  decide

/-- C3: for `page ≥ 1`, `limit ≥ 1`, `total ≥ 0`, the pagination
computation yields `offset = (page-1)*limit` (0 for page 1),
`totalPages = ⌈total/limit⌉`, `hasNext = (page < totalPages)`,
`hasPrev = (page > 1)`, and `total = 0` gives `totalPages = 0`,
`hasNext = false`. -/
theorem pagination_arithmetic (page limit total : Int)
    (hp : 1 ≤ page) (hl : 1 ≤ limit) (ht : 0 ≤ total) :
    calculateOffset page limit = (page - 1) * limit ∧
    calculateOffset 1 limit = 0 ∧
    (buildPaginationMeta page limit total).totalPages
      = Int.ceil ((total : ℚ) / (limit : ℚ)) ∧
    ((buildPaginationMeta page limit total).hasNext = true
      ↔ page < (buildPaginationMeta page limit total).totalPages) ∧
    ((buildPaginationMeta page limit total).hasPrev = true ↔ 1 < page) ∧
    (total = 0 → (buildPaginationMeta page limit total).totalPages = 0 ∧
      (buildPaginationMeta page limit total).hasNext = false) := by
  have hceil := mathCeilDiv_eq_ceil total limit (by omega)
  refine ⟨rfl, by simp [calculateOffset], ?_, ?_, ?_, ?_⟩
  · simpa [buildPaginationMeta] using hceil
  · simp [buildPaginationMeta]
  · simp [buildPaginationMeta]
  · intro h0
    subst h0
    constructor
    · simp [buildPaginationMeta, mathCeilDiv]
    · simp [buildPaginationMeta, mathCeilDiv]
      omega

/-- Witness for C3 at `page = 3`, `limit = 2`, `total = 5`. -/
theorem pagination_arithmetic_witness :
    calculateOffset 3 2 = (3 - 1) * 2 ∧
    calculateOffset 1 2 = 0 ∧
    (buildPaginationMeta 3 2 5).totalPages
      = Int.ceil (((5 : Int) : ℚ) / ((2 : Int) : ℚ)) ∧
    ((buildPaginationMeta 3 2 5).hasNext = true
      ↔ (3 : Int) < (buildPaginationMeta 3 2 5).totalPages) ∧
    ((buildPaginationMeta 3 2 5).hasPrev = true ↔ (1 : Int) < 3) ∧
    ((5 : Int) = 0 → (buildPaginationMeta 3 2 5).totalPages = 0 ∧
      (buildPaginationMeta 3 2 5).hasNext = false) :=
  pagination_arithmetic 3 2 5 (by decide) (by decide) (by decide)

/-- C10: the optional description decodes exactly `null` and `undefined`
to the absent case; the absent case always encodes to `null`; a present
value outside the 50–1000 range fails decoding rather than becoming
absent, and a valid present value decodes to `some`. -/
theorem optionalDescription_codec :
    (∀ j : JsOpt, decodeDescription j = .ok none ↔ (j = .null ∨ j = .undef)) ∧
    encodeDescription none = .ok .null ∧
    (∀ s, TaskGuards.validateDescription s = false →
      decodeDescription (.str s) = .error .validation) ∧
    (∀ s, TaskGuards.validateDescription s = true →
      decodeDescription (.str s) = .ok (some s)) := by
  refine ⟨?_, rfl, ?_, ?_⟩
  · intro j
    cases j <;> simp [decodeDescription]
    rename_i s
    split <;> simp
  · intro s h
    simp [decodeDescription, h]
  · intro s h
    simp [decodeDescription, h]

/-- Witness for C10 at a 10-character and a 50-character description. -/
theorem optionalDescription_codec_witness :
    TaskGuards.validateDescription (mkA 10) = false ∧
    decodeDescription (.str (mkA 10)) = .error .validation ∧
    TaskGuards.validateDescription (mkA 50) = true ∧
    decodeDescription (.str (mkA 50)) = .ok (some (mkA 50)) :=
  ⟨by decide, optionalDescription_codec.2.2.1 (mkA 10) (by decide),
   by decide, optionalDescription_codec.2.2.2 (mkA 50) (by decide)⟩

/-! ### C1: entity round-trips -/

theorem TaskStatus.encoded_of_fromEncoded {s : String} {st : TaskStatus}
    (h : TaskStatus.fromEncoded s = some st) : TaskStatus.encoded st = s := by
  unfold TaskStatus.fromEncoded at h
  split_ifs at h with h1 h2 h3 <;> (try cases h) <;> simp_all [TaskStatus.encoded]

theorem TaskStatus.fromEncoded_encoded (st : TaskStatus) :
    TaskStatus.fromEncoded st.encoded = some st := by
  cases st <;> rfl

theorem user_roundtrip_fwd (r : SerializedUser) (u : UserE)
    (h : UserE.create r = .ok u) : UserE.serializedE u = .ok r := by
  simp only [UserE.create] at h
  split at h
  · rename_i hc
    simp only [Except.ok.injEq] at h
    subst h
    simp [UserE.serializedE, hc]
  · simp at h

theorem user_roundtrip_bwd (u : UserE) (r : SerializedUser)
    (h : UserE.serializedE u = .ok r) : UserE.create r = .ok u := by
  simp only [UserE.serializedE] at h
  split at h
  · rename_i hc
    simp only [Except.ok.injEq] at h
    subst h
    simp [UserE.create, hc]
  · simp at h

theorem task_roundtrip_fwd (r : SerializedTask) (t : TaskE)
    (hd : r.description ≠ JsOpt.undef)
    (h : TaskE.create r = .ok t) : TaskE.serializedE t = .ok r := by
  simp only [TaskE.create] at h
  split at h
  · rename_i st d hst hdes
    split at h
    · rename_i hsc
      simp only [Except.ok.injEq] at h
      subst h
      have henc := TaskStatus.encoded_of_fromEncoded hst
      have hde : encodeDescription d = .ok r.description := by
        cases hdescr : r.description with
        | null =>
            rw [hdescr] at hdes
            simp only [decodeDescription, Except.ok.injEq] at hdes
            subst hdes
            rfl
        | undef => exact absurd hdescr hd
        | str s =>
            rw [hdescr] at hdes
            simp only [decodeDescription] at hdes
            split at hdes
            · rename_i hval
              simp only [Except.ok.injEq] at hdes
              subst hdes
              simp [encodeDescription, hval]
            · simp at hdes
        | other =>
            rw [hdescr] at hdes
            simp [decodeDescription] at hdes
      simp [TaskE.serializedE, hde, hsc, henc]
    · simp at h
  · simp at h

theorem task_roundtrip_bwd (t : TaskE) (r : SerializedTask)
    (h : TaskE.serializedE t = .ok r) : TaskE.create r = .ok t := by
  simp only [TaskE.serializedE] at h
  split at h
  · rename_i d hdes
    split at h
    · rename_i hsc
      simp only [Except.ok.injEq] at h
      subst h
      have hdec : decodeDescription d = .ok t.description := by
        cases hdescr : t.description with
        | none =>
            rw [hdescr] at hdes
            simp only [encodeDescription, Except.ok.injEq] at hdes
            subst hdes
            rfl
        | some s =>
            rw [hdescr] at hdes
            simp only [encodeDescription] at hdes
            split at hdes
            · rename_i hval
              simp only [Except.ok.injEq] at hdes
              subst hdes
              simp [decodeDescription, hval]
            · simp at hdes
      simp [TaskE.create, hdec, TaskStatus.fromEncoded_encoded, hsc]
    · simp at h
  · simp at h

/-- C1 counterexample: the serialized task `taskRecUndef` is valid (it
decodes to `taskEntityU`), yet re-serializing that entity yields
`taskRecNull`, whose `description` is `null` instead of the original
`undefined` — so `serialize(create(r)) ≠ r` for this valid `r`. -/
theorem entity_roundtrip_cex :
    TaskE.create taskRecUndef = .ok taskEntityU ∧
    TaskE.serializedE taskEntityU = .ok taskRecNull ∧
    taskRecNull ≠ taskRecUndef := by
  decide

/-- C1 (amended): `create(serialize(e)) = e` holds for every valid
entity of both kinds, and `serialize(create(r)) = r` holds for every
valid serialized user record, and for every valid serialized task
record whose `description` is not `undefined` (an undefined description
decodes but comes back as `null`). -/
theorem entity_roundtrip :
    (∀ (r : SerializedUser) (u : UserE),
       UserE.create r = .ok u → UserE.serializedE u = .ok r) ∧
    (∀ (u : UserE) (r : SerializedUser),
       UserE.serializedE u = .ok r → UserE.create r = .ok u) ∧
    (∀ (r : SerializedTask) (t : TaskE), r.description ≠ JsOpt.undef →
       TaskE.create r = .ok t → TaskE.serializedE t = .ok r) ∧
    (∀ (t : TaskE) (r : SerializedTask),
       TaskE.serializedE t = .ok r → TaskE.create r = .ok t) :=
  ⟨user_roundtrip_fwd, user_roundtrip_bwd, task_roundtrip_fwd, task_roundtrip_bwd⟩

/-- Witness for C1 at a concrete user and task. -/
theorem entity_roundtrip_witness :
    UserE.serializedE userEnt0 = .ok userRec0 ∧
    UserE.create userRec0 = .ok userEnt0 ∧
    TaskE.serializedE taskEntityU = .ok taskRecNull ∧
    TaskE.create taskRecNull = .ok taskEntityU :=
  ⟨entity_roundtrip.1 userRec0 userEnt0 (by decide),
   entity_roundtrip.2.1 userEnt0 userRec0 (by decide),
   entity_roundtrip.2.2.1 taskRecNull taskEntityU (by decide) (by decide),
   entity_roundtrip.2.2.2 taskEntityU taskRecNull (by decide)⟩

/-! ### C4: the search WHERE predicate -/

/-- A stored task row titled "Alpha task". -/
def alphaRow : SerializedTask :=
  ⟨uuid1, "Alpha task", .null, "TODO", uuid2, .valid 0, .valid 0⟩

/-- Search params with only a status filter (no text). -/
def statusOnlyParams : SearchParams :=
  ⟨1, 10, none, some [.done], none, none, none⟩

/-- Search params with only lowercase text. -/
def lowerTextParams : SearchParams :=
  ⟨1, 10, some "alpha", none, none, none, none⟩

/-- Search params with only capitalised text. -/
def upperTextParams : SearchParams :=
  ⟨1, 10, some "Alpha", none, none, none, none⟩

/-- Search params with only an assignee filter (no text). -/
def assigneeParams : SearchParams :=
  ⟨1, 10, none, none, some uuid3, none, none⟩

/-- C4 counterexample: with a status filter `DONE` and no text, the
built predicate still matches a `TODO` row (the status filter is never
added to the WHERE clause), and with text `"alpha"` the built predicate
misses the row titled "Alpha task" (`LIKE` is case-sensitive), both
contrary to the claimed predicate. -/
theorem taskSearchWhere_cex :
    taskSearchWhere alphaRow statusOnlyParams = true ∧
    specTaskSearchWhere alphaRow 0 statusOnlyParams = false ∧
    taskSearchWhere alphaRow lowerTextParams = false ∧
    specTaskSearchWhere alphaRow 0 lowerTextParams = true := by
  decide

/-- C4 (amended): the WHERE predicate of the task search consists solely
of the case-sensitive substring match against title OR description when
`text` is present; an absent `text` places no constraint, and the
status/assignee/date-range parameters never influence the predicate. -/
theorem taskSearchWhere_textOnly :
    (∀ (r : SerializedTask) (p : SearchParams), p.text = none →
       taskSearchWhere r p = true) ∧
    (∀ (r : SerializedTask) (p : SearchParams) (t : String), p.text = some t →
       taskSearchWhere r p =
         (sqlLikeContains r.title t ||
           (match r.description with
            | JsOpt.str s => sqlLikeContains s t
            | _ => false))) ∧
    (∀ (r : SerializedTask) (p q : SearchParams), p.text = q.text →
       taskSearchWhere r p = taskSearchWhere r q) := by
  refine ⟨?_, ?_, ?_⟩
  · intro r p h
    simp [taskSearchWhere, h]
  · intro r p t h
    simp only [taskSearchWhere, h]
    cases r.description <;> simp [sqlLikeContainsNullable]
  · intro r p q h
    simp only [taskSearchWhere, h]

/-- Witness for C4 on the "Alpha task" row. -/
theorem taskSearchWhere_textOnly_witness :
    taskSearchWhere alphaRow statusOnlyParams = true ∧
    taskSearchWhere alphaRow upperTextParams =
      (sqlLikeContains alphaRow.title "Alpha" ||
        (match alphaRow.description with
         | JsOpt.str s => sqlLikeContains s "Alpha"
         | _ => false)) ∧
    taskSearchWhere alphaRow statusOnlyParams
      = taskSearchWhere alphaRow assigneeParams :=
  ⟨taskSearchWhere_textOnly.1 alphaRow statusOnlyParams rfl,
   taskSearchWhere_textOnly.2.1 alphaRow upperTextParams "Alpha" rfl,
   taskSearchWhere_textOnly.2.2 alphaRow statusOnlyParams assigneeParams rfl⟩

/-! ### C5: the fetch-paginated workflows -/

/-- A stored task row. -/
def taskRow1 : SerializedTask :=
  ⟨uuid1, "Task one", .null, "TODO", uuid2, .valid 10, .valid 10⟩

/-- A second stored task row. -/
def taskRow2 : SerializedTask :=
  ⟨uuid3, "Task two", .null, "DONE", uuid2, .valid 20, .valid 20⟩

/-- The entity decoded from `taskRow1`. -/
def taskEnt1 : TaskE :=
  ⟨uuid1, "Task one", none, .todo, uuid2, .valid 10, .valid 10⟩

/-- The entity decoded from `taskRow2`. -/
def taskEnt2 : TaskE :=
  ⟨uuid3, "Task two", none, .done, uuid2, .valid 20, .valid 20⟩

theorem createAllUsers_length (l : List SerializedUser) :
    ∀ us, createAllUsers l = .ok us → us.length = l.length := by
  induction l with
  | nil =>
      intro us h
      simp only [createAllUsers, Except.ok.injEq] at h
      subst h
      rfl
  | cons r rs ih =>
      intro us h
      simp only [createAllUsers] at h
      split at h
      · rename_i u us2 hu hus
        simp only [Except.ok.injEq] at h
        subst h
        simp [ih us2 hus]
      · simp at h
      · simp at h

theorem userFetchPaginated_ok (st : List SerializedUser) (dto : PagDto)
    (d : Paginated UserE) (h : UserRepo.fetchPaginated st dto = .ok d) :
    d.pagination = buildPaginationMeta dto.page dto.limit (st.length : Int) ∧
    d.data.length ≤ dto.limit.toNat := by
  simp only [UserRepo.fetchPaginated] at h
  split at h
  · rename_i us hus
    simp only [Except.ok.injEq] at h
    subst h
    refine ⟨rfl, ?_⟩
    have hlen := createAllUsers_length _ _ hus
    simp only [hlen]
    exact List.length_take_le _ _
  · simp at h

/-- C5 counterexample: over a store of two tasks, the task
fetch-paginated workflow with `page = 1, limit = 1` returns both rows —
it delegates to `fetchAll`, not to a paginated operation, so the result
is neither bounded by `limit` nor paired with pagination metadata. -/
theorem tasksPaginated_cex :
    getTasksPaginatedW [taskRow1, taskRow2] ⟨1, 1⟩ = .ok [taskEnt1, taskEnt2] ∧
    ¬([taskEnt1, taskEnt2].length ≤ (1 : Int).toNat) := by
  decide

/-- C5 (amended): the user fetch-paginated workflow delegates to the
repository's `fetchPaginated` with the decoded options — the page of
rows is bounded by `limit` and carries `buildPaginationMeta` metadata —
and maps repository errors to a workflow validation error; the task
fetch-paginated workflow instead ignores the decoded options entirely
and returns `fetchAll`'s rows (mapping its errors the same way). -/
theorem paginatedWorkflows_delegation :
    (∀ (st : List SerializedUser) (dto : PagDto) (d : Paginated UserE),
       UserRepo.fetchPaginated st dto = .ok d →
       getUsersPaginatedW st dto = .ok d ∧
       d.pagination = buildPaginationMeta dto.page dto.limit (st.length : Int) ∧
       d.data.length ≤ dto.limit.toNat) ∧
    (∀ (st : List SerializedUser) (dto : PagDto) (e : Err),
       UserRepo.fetchPaginated st dto = .error e →
       getUsersPaginatedW st dto = .error .validation) ∧
    (∀ (st : List SerializedTask) (dto dto2 : PagDto),
       getTasksPaginatedW st dto = getTasksPaginatedW st dto2) ∧
    (∀ (st : List SerializedTask) (dto : PagDto) (l : List TaskE),
       TaskRepo.fetchAll st = .ok l → getTasksPaginatedW st dto = .ok l) := by
  refine ⟨?_, ?_, ?_, ?_⟩
  · intro st dto d h
    exact ⟨by simp [getUsersPaginatedW, h], userFetchPaginated_ok st dto d h⟩
  · intro st dto e h
    simp [getUsersPaginatedW, h]
  · intro st dto dto2
    rfl
  · intro st dto l h
    simp [getTasksPaginatedW, h]

/-- The paginated result over the one-user store. -/
def pgUsers0 : Paginated UserE :=
  ⟨[userEnt0], buildPaginationMeta 1 1 1⟩

/-- Witness for C5 over one-row stores. -/
theorem paginatedWorkflows_delegation_witness :
    UserRepo.fetchPaginated [userRec0] ⟨1, 1⟩ = .ok pgUsers0 ∧
    (getUsersPaginatedW [userRec0] ⟨1, 1⟩ = .ok pgUsers0 ∧
     pgUsers0.pagination
       = buildPaginationMeta 1 1 (([userRec0] : List SerializedUser).length : Int) ∧
     pgUsers0.data.length ≤ (1 : Int).toNat) ∧
    getTasksPaginatedW [taskRow1] ⟨1, 1⟩ = getTasksPaginatedW [taskRow1] ⟨2, 5⟩ ∧
    TaskRepo.fetchAll [taskRow1] = .ok [taskEnt1] ∧
    getTasksPaginatedW [taskRow1] ⟨1, 1⟩ = .ok [taskEnt1] :=
  ⟨by decide,
   paginatedWorkflows_delegation.1 [userRec0] ⟨1, 1⟩ pgUsers0 (by decide),
   paginatedWorkflows_delegation.2.2.1 [taskRow1] ⟨1, 1⟩ ⟨2, 5⟩,
   by decide,
   paginatedWorkflows_delegation.2.2.2 [taskRow1] ⟨1, 1⟩ [taskEnt1] (by decide)⟩

/-! ### C6: update verifies existence before writing -/

theorem taskUpdate_notFound (st : List SerializedTask) (e : TaskE)
    (h : st.filter (fun r => r.id == e.id) = []) :
    TaskRepo.update st e = (.error (.notFound "update"), st) := by
  simp [TaskRepo.update, TaskRepo.ensureExists, TaskRepo.fetchById, h]

theorem taskUpdate_found (st : List SerializedTask) (e t : TaskE)
    (row : SerializedTask)
    (h1 : TaskRepo.fetchById st e.id = .ok (some t))
    (h2 : TaskE.serializedE e = .ok row) :
    TaskRepo.update st e
      = (.ok e, st.map (fun r => if r.id == e.id then row else r)) := by
  simp [TaskRepo.update, TaskRepo.ensureExists, h1, h2]

theorem userUpdate_notFound (st : List SerializedUser) (e : UserE)
    (h : st.filter (fun r => r.id == e.id) = []) :
    UserRepo.update st e = (.error (.notFound "update"), st) := by
  unfold UserRepo.update UserRepo.ensureExists UserRepo.fetchById
  cases hv : isUUIDString e.id <;> simp [hv, h]

theorem userUpdate_found (st : List SerializedUser) (e u : UserE)
    (row : SerializedUser)
    (h1 : UserRepo.fetchById st e.id = .ok (some u))
    (h2 : UserE.serializedE e = .ok row) :
    UserRepo.update st e
      = (.ok e, st.map (fun r => if r.id == e.id then row else r)) := by
  simp [UserRepo.update, UserRepo.ensureExists, h1, h2]

/-- C6: when no stored row matches the entity's identifier, `update`
fails with the not-found-rooted error and leaves the store untouched
(the `UPDATE` is only issued after `ensureExists` succeeds); when a row
matches (and the entity serializes), `update` succeeds, returns the
entity, and rewrites exactly the matching rows.  Both repositories. -/
theorem repositoryUpdate_existence :
    (∀ (st : List SerializedTask) (e : TaskE),
       st.filter (fun r => r.id == e.id) = [] →
       TaskRepo.update st e = (.error (.notFound "update"), st)) ∧
    (∀ (st : List SerializedTask) (e t : TaskE) (row : SerializedTask),
       TaskRepo.fetchById st e.id = .ok (some t) →
       TaskE.serializedE e = .ok row →
       TaskRepo.update st e
         = (.ok e, st.map (fun r => if r.id == e.id then row else r))) ∧
    (∀ (st : List SerializedUser) (e : UserE),
       st.filter (fun r => r.id == e.id) = [] →
       UserRepo.update st e = (.error (.notFound "update"), st)) ∧
    (∀ (st : List SerializedUser) (e u : UserE) (row : SerializedUser),
       UserRepo.fetchById st e.id = .ok (some u) →
       UserE.serializedE e = .ok row →
       UserRepo.update st e
         = (.ok e, st.map (fun r => if r.id == e.id then row else r))) :=
  ⟨taskUpdate_notFound, taskUpdate_found, userUpdate_notFound, userUpdate_found⟩

/-- `taskEnt1` with a new title, status and refreshed `updatedAt`. -/
def taskEnt1Upd : TaskE :=
  ⟨uuid1, "Task one renamed", none, .done, uuid2, .valid 10, .valid 30⟩

/-- The serialized form of `taskEnt1Upd`. -/
def taskRow1Upd : SerializedTask :=
  ⟨uuid1, "Task one renamed", .null, "DONE", uuid2, .valid 10, .valid 30⟩

/-- `userEnt0` with a new name and refreshed `updatedAt`. -/
def userEnt0Upd : UserE :=
  ⟨uuid1, "Ada L", "ada@example.com", "secret-pw", .valid 5, .valid 9⟩

/-- The serialized form of `userEnt0Upd`. -/
def userRec0Upd : SerializedUser :=
  ⟨uuid1, "Ada L", "ada@example.com", "secret-pw", .valid 5, .valid 9⟩

/-- Witness for C6 on empty and one-row stores. -/
theorem repositoryUpdate_existence_witness :
    TaskRepo.update [] taskEnt1 = (.error (.notFound "update"), ([] : List SerializedTask)) ∧
    TaskRepo.update [taskRow1] taskEnt1Upd
      = (.ok taskEnt1Upd,
         [taskRow1].map (fun r => if r.id == taskEnt1Upd.id then taskRow1Upd else r)) ∧
    UserRepo.update [] userEnt0 = (.error (.notFound "update"), ([] : List SerializedUser)) ∧
    UserRepo.update [userRec0] userEnt0Upd
      = (.ok userEnt0Upd,
         [userRec0].map (fun r => if r.id == userEnt0Upd.id then userRec0Upd else r)) :=
  ⟨repositoryUpdate_existence.1 [] taskEnt1 rfl,
   repositoryUpdate_existence.2.1 [taskRow1] taskEnt1Upd taskEnt1 taskRow1Upd
     (by decide) (by decide),
   repositoryUpdate_existence.2.2.1 [] userEnt0 rfl,
   repositoryUpdate_existence.2.2.2 [userRec0] userEnt0Upd userEnt0 userRec0Upd
     (by decide) (by decide)⟩

/-! ### C7: deleteById and delete-then-fetch -/

theorem filterNot_then_filter (st : List α) (f : α → Bool) :
    (st.filter (fun r => !(f r))).filter f = [] := by
  induction st with
  | nil => rfl
  | cons a l ih =>
      cases h : f a <;> simp [List.filter_cons, h, ih]

theorem taskDelete_found (st : List SerializedTask) (id : String) (t : TaskE)
    (h : TaskRepo.fetchById st id = .ok (some t)) :
    TaskRepo.deleteById st id = (.ok t, st.filter (fun r => !(r.id == id))) ∧
    TaskRepo.fetchById (st.filter (fun r => !(r.id == id))) id = .ok none := by
  constructor
  · simp [TaskRepo.deleteById, h]
  · have hf := filterNot_then_filter st (fun r => r.id == id)
    simp [TaskRepo.fetchById, hf]

theorem taskDelete_notFound (st : List SerializedTask) (id : String)
    (h : TaskRepo.fetchById st id = .ok none) :
    TaskRepo.deleteById st id = (.error (.notFound "remove"), st) := by
  simp [TaskRepo.deleteById, h]

theorem userDelete_found (st : List SerializedUser) (id : String) (u : UserE)
    (h : UserRepo.fetchById st id = .ok (some u)) :
    UserRepo.deleteById st id = (.ok u, st.filter (fun r => !(r.id == id))) ∧
    UserRepo.fetchById (st.filter (fun r => !(r.id == id))) id = .ok none := by
  have hv : isUUIDString id = true := by
    by_contra hv
    simp [UserRepo.fetchById, Bool.not_eq_true] at hv
    simp [UserRepo.fetchById, hv] at h
  constructor
  · simp [UserRepo.deleteById, h]
  · have hf := filterNot_then_filter st (fun r => r.id == id)
    simp [UserRepo.fetchById, hv, hf]

theorem userDelete_notFound (st : List SerializedUser) (id : String)
    (h : UserRepo.fetchById st id = .ok none) :
    UserRepo.deleteById st id = (.error (.notFound "remove"), st) := by
  simp [UserRepo.deleteById, h]

/-- C7: deleting a stored entity returns its prior state and removes its
rows, after which `fetchById` on that identifier yields the empty-result
marker; deleting an identifier with no matching row (hence also an
already-deleted one) fails with the not-found removal error and leaves
the store untouched.  Both repositories. -/
theorem deleteById_then_fetch :
    (∀ (st : List SerializedTask) (id : String) (t : TaskE),
       TaskRepo.fetchById st id = .ok (some t) →
       TaskRepo.deleteById st id = (.ok t, st.filter (fun r => !(r.id == id))) ∧
       TaskRepo.fetchById (st.filter (fun r => !(r.id == id))) id = .ok none) ∧
    (∀ (st : List SerializedTask) (id : String),
       TaskRepo.fetchById st id = .ok none →
       TaskRepo.deleteById st id = (.error (.notFound "remove"), st)) ∧
    (∀ (st : List SerializedUser) (id : String) (u : UserE),
       UserRepo.fetchById st id = .ok (some u) →
       UserRepo.deleteById st id = (.ok u, st.filter (fun r => !(r.id == id))) ∧
       UserRepo.fetchById (st.filter (fun r => !(r.id == id))) id = .ok none) ∧
    (∀ (st : List SerializedUser) (id : String),
       UserRepo.fetchById st id = .ok none →
       UserRepo.deleteById st id = (.error (.notFound "remove"), st)) :=
  ⟨taskDelete_found, taskDelete_notFound, userDelete_found, userDelete_notFound⟩

/-- Witness for C7 on one-row and empty stores. -/
theorem deleteById_then_fetch_witness :
    (TaskRepo.deleteById [taskRow1] uuid1
       = (.ok taskEnt1, [taskRow1].filter (fun r => !(r.id == uuid1))) ∧
     TaskRepo.fetchById ([taskRow1].filter (fun r => !(r.id == uuid1))) uuid1
       = .ok none) ∧
    TaskRepo.deleteById ([] : List SerializedTask) uuid1
      = (.error (.notFound "remove"), []) ∧
    (UserRepo.deleteById [userRec0] uuid1
       = (.ok userEnt0, [userRec0].filter (fun r => !(r.id == uuid1))) ∧
     UserRepo.fetchById ([userRec0].filter (fun r => !(r.id == uuid1))) uuid1
       = .ok none) ∧
    UserRepo.deleteById ([] : List SerializedUser) uuid1
      = (.error (.notFound "remove"), []) :=
  ⟨deleteById_then_fetch.1 [taskRow1] uuid1 taskEnt1 (by decide),
   deleteById_then_fetch.2.1 [] uuid1 (by decide),
   deleteById_then_fetch.2.2.1 [userRec0] uuid1 userEnt0 (by decide),
   deleteById_then_fetch.2.2.2 [] uuid1 (by decide)⟩

/-! ### C8: the date-range decode invariant -/

theorem dateRange_reject (st : List SerializedTask) (p : SearchParams)
    (f t : Int) (h1 : p.createdFrom = some f) (h2 : p.createdTo = some t)
    (h3 : t < f) :
    decodeSearchParams p = .error .validation ∧
    searchTasksW st p = (.error .validation, false) := by
  have hbad : dateRangeOk p.createdFrom p.createdTo = false := by
    simp [dateRangeOk, h1, h2]
    omega
  have hdec : decodeSearchParams p = .error .validation := by
    simp [decodeSearchParams, hbad]
  exact ⟨hdec, by simp [searchTasksW, hdec]⟩

theorem dateRange_accept (p : SearchParams)
    (h : dateRangeOk p.createdFrom p.createdTo = true) :
    decodeSearchParams p = .ok p := by
  simp [decodeSearchParams, h]

/-- C8: search parameters carrying both bounds with
`createdFrom > createdTo` fail the decode-time refinement with a
validation error, and the search workflow then never reaches the
repository; with `createdFrom ≤ createdTo`, or with at most one bound
present, the refinement accepts the record. -/
theorem searchParams_dateRange :
    (∀ (st : List SerializedTask) (p : SearchParams) (f t : Int),
       p.createdFrom = some f → p.createdTo = some t → t < f →
       decodeSearchParams p = .error .validation ∧
       searchTasksW st p = (.error .validation, false)) ∧
    (∀ (p : SearchParams) (f t : Int),
       p.createdFrom = some f → p.createdTo = some t → f ≤ t →
       decodeSearchParams p = .ok p) ∧
    (∀ (p : SearchParams), p.createdFrom = none ∨ p.createdTo = none →
       decodeSearchParams p = .ok p) := by
  refine ⟨dateRange_reject, ?_, ?_⟩
  · intro p f t h1 h2 h3
    apply dateRange_accept
    simp [dateRangeOk, h1, h2, h3]
  · intro p h
    apply dateRange_accept
    cases h with
    | inl h => simp [dateRangeOk, h]
    | inr h =>
        cases hf : p.createdFrom <;> simp [dateRangeOk, h, hf]

/-- Params with `createdFrom > createdTo`. -/
def badRangeParams : SearchParams :=
  ⟨1, 10, none, none, none, some 5, some 3⟩

/-- Params with `createdFrom ≤ createdTo`. -/
def goodRangeParams : SearchParams :=
  ⟨1, 10, none, none, none, some 3, some 5⟩

/-- Params with only the lower bound. -/
def openRangeParams : SearchParams :=
  ⟨1, 10, none, none, none, some 3, none⟩

/-- Witness for C8 at concrete parameter records. -/
theorem searchParams_dateRange_witness :
    (decodeSearchParams badRangeParams = .error .validation ∧
     searchTasksW [] badRangeParams = (.error .validation, false)) ∧
    decodeSearchParams goodRangeParams = .ok goodRangeParams ∧
    decodeSearchParams openRangeParams = .ok openRangeParams :=
  ⟨searchParams_dateRange.1 [] badRangeParams 5 3 rfl rfl (by decide),
   searchParams_dateRange.2.1 goodRangeParams 3 5 rfl rfl (by decide),
   searchParams_dateRange.2.2 openRangeParams (Or.inr rfl)⟩

/-! ### C9: data-query ordering -/

/-- A task row created at instant 50. -/
def taskRowEqA : SerializedTask :=
  ⟨uuid1, "Task A", .null, "TODO", uuid2, .valid 50, .valid 50⟩

/-- A different task row created at the same instant 50. -/
def taskRowEqB : SerializedTask :=
  ⟨uuid3, "Task B", .null, "TODO", uuid2, .valid 50, .valid 50⟩

theorem intCompare_self (a : Int) : intCompare a a = .eq := by
  simp [intCompare]

theorem strCompare_ne (a b : String) (h : a ≠ b) : strCompare a b ≠ .eq := by
  unfold strCompare
  split_ifs <;> simp_all

theorem userOrd_newer_first (a b : SerializedUser)
    (h : b.createdMs < a.createdMs) : userPaginatedDataOrd a b = .lt := by
  simp [userPaginatedDataOrd, intCompare, h, Ordering.then]

theorem userOrd_tiebreak (a b : SerializedUser)
    (h : a.createdMs = b.createdMs) :
    userPaginatedDataOrd a b = strCompare b.id a.id := by
  simp [userPaginatedDataOrd, h, intCompare_self, Ordering.then]

theorem taskOrd_eq_timestamps (a b : SerializedTask)
    (h : a.createdMs = b.createdMs) : taskSearchDataOrd a b = .eq := by
  simp [taskSearchDataOrd, h, intCompare_self]

/-- C9 counterexample: two distinct task rows with equal `createdAt` are
indistinguishable to the task search's ORDER BY (`createdAt DESC` with
no identifier tiebreak), so that data query's ordering is not stable
across equal timestamps as the claim states. -/
theorem dataQueryOrdering_cex :
    taskRowEqA.id ≠ taskRowEqB.id ∧
    taskRowEqA.createdMs = taskRowEqB.createdMs ∧
    taskSearchDataOrd taskRowEqA taskRowEqB = .eq ∧
    taskSearchDataOrd taskRowEqB taskRowEqA = .eq := by
  decide

/-- C9 (amended): the user `fetchPaginated` data query orders by
creation time descending with the identifier (descending) as a tiebreak
— rows with equal timestamps but distinct identifiers are still
strictly ordered — while the task search data query orders by creation
time descending only, leaving rows with equal timestamps unordered. -/
theorem dataQueryOrdering :
    (∀ a b : SerializedUser, b.createdMs < a.createdMs →
       userPaginatedDataOrd a b = .lt) ∧
    (∀ a b : SerializedUser, a.createdMs = b.createdMs →
       userPaginatedDataOrd a b = strCompare b.id a.id) ∧
    (∀ a b : SerializedUser, a.createdMs = b.createdMs → b.id ≠ a.id →
       userPaginatedDataOrd a b ≠ .eq) ∧
    (∀ a b : SerializedTask, b.createdMs < a.createdMs →
       taskSearchDataOrd a b = .lt) ∧
    (∀ a b : SerializedTask, a.createdMs = b.createdMs →
       taskSearchDataOrd a b = .eq) := by
  refine ⟨userOrd_newer_first, userOrd_tiebreak, ?_, ?_, taskOrd_eq_timestamps⟩
  · intro a b h hne
    rw [userOrd_tiebreak a b h]
    exact strCompare_ne _ _ hne
  · intro a b h
    simp [taskSearchDataOrd, intCompare, h]

/-- A user row created at instant 50. -/
def userRowEqA : SerializedUser :=
  ⟨uuid1, "Ann", "ann@example.com", "pw111", .valid 50, .valid 50⟩

/-- A different user row created at the same instant 50. -/
def userRowEqB : SerializedUser :=
  ⟨uuid2, "Bob", "bob@example.com", "pw222", .valid 50, .valid 50⟩

/-- A newer user row, created at instant 99. -/
def userRowNew : SerializedUser :=
  ⟨uuid3, "Cyn", "cyn@example.com", "pw333", .valid 99, .valid 99⟩

/-- Witness for C9 at concrete rows. -/
theorem dataQueryOrdering_witness :
    userPaginatedDataOrd userRowNew userRowEqA = .lt ∧
    userPaginatedDataOrd userRowEqA userRowEqB
      = strCompare userRowEqB.id userRowEqA.id ∧
    userPaginatedDataOrd userRowEqA userRowEqB ≠ .eq ∧
    taskSearchDataOrd taskRowEqA taskRowEqB = .eq :=
  ⟨dataQueryOrdering.1 userRowNew userRowEqA (by decide),
   dataQueryOrdering.2.1 userRowEqA userRowEqB (by decide),
   dataQueryOrdering.2.2.1 userRowEqA userRowEqB (by decide) (by decide),
   dataQueryOrdering.2.2.2.2 taskRowEqA taskRowEqB (by decide)⟩

end Todo
